import Mathlib

/-!
Verification development for the Bittle Connect serial core.

Embedded source:
* src/src/lib/serial.ts — protocol framing, the SerialManager command queue
  (executeCommand / processQueue), sendDigitalWrite / sendSkill /
  sendRawCommand / forceStopMotor, connect / disconnect;
* src/src/components/TimelineTab.tsx — the DONE-sequence controller
  (handleDone) and the emergency stop (handleEmergencyStop).

Modelling conventions: JS numbers carrying ports are Int (they are range
checked in the source); Uint8Array elements are Nat reduced mod 256; the
wall-clock formatTime() prefix of log messages is elided (log messages keep
only their fixed text); promises that can reject are Except-valued, and a
source try/catch appears as a match on that Except.
-/

namespace Bittle

/-- Log entry kinds: SerialLog.type in serial.ts. -/
inductive LogKind
  | tx | rx | info | error
deriving DecidableEq, Repr

/-- A log entry (serial.ts SerialLog, timestamp elided). -/
structure LogEntry where
  kind : LogKind
  message : String
deriving DecidableEq, Repr

/-- TextEncoder().encode restricted to the ASCII strings this protocol uses:
UTF-8 of an ASCII string is the list of its code points. -/
def asciiBytes (s : String) : List Nat :=
  s.data.map Char.toNat

/-- Uint8Array element conversion: a JS number is truncated modulo 256. -/
def byteOf (n : Nat) : Nat := n % 256

/-- Frame built by sendDigitalWrite and forceStopMotor:
new Uint8Array([87, 100, port, value]). -/
def dwFrame (port value : Nat) : List Nat :=
  [87, 100, byteOf port, byteOf value]

/-- Frame built by sendSkill and sendRawCommand:
encoder.encode(text + newline). -/
def lineFrame (text : String) : List Nat :=
  asciiBytes (text ++ "\n")

/-- Nullability of the SerialManager handles plus the isReading flag. -/
structure SerialState where
  hasPort : Bool
  hasWriter : Bool
  hasReader : Bool
  isReading : Bool
deriving DecidableEq, Repr

/-- serial.ts: get isConnected() returns port !== null and writer !== null. -/
def SerialState.isConnected (s : SerialState) : Bool :=
  s.hasPort && s.hasWriter

/-- Transport oracle: whether a given writer.write(frame) call succeeds or
rejects. It abstracts the device and the Web Serial stream. -/
structure Transport where
  writeOk : List Nat → Bool

/-- Observable effects of one command body: the log entries it emits and the
frames it passes to writer.write, each tagged with whether the write
succeeded. -/
structure ThunkResult where
  logs : List LogEntry
  writes : List (List Nat × Bool)
deriving DecidableEq, Repr

/-- Frames actually written to the device (the successful writes). -/
def ThunkResult.sent (r : ThunkResult) : List (List Nat) :=
  (r.writes.filter (fun w => w.2)).map (fun w => w.1)

/-- writer.write(data): resolves or rejects according to the transport. -/
def writeFrame (tr : Transport) (data : List Nat) : Except String Unit :=
  if tr.writeOk data then .ok () else .error "write failed"

/-- Body of the command queued by sendDigitalWrite (serial.ts 177-207).
The Except records whether the thunk promise can reject; every branch of the
source, including the caught write failure, resolves. -/
def sendDigitalWriteThunk (tr : Transport) (st : SerialState) (port : Int)
    (value : Nat) : Except String ThunkResult :=
  if !st.isConnected || !st.hasWriter then
    .ok ⟨[⟨.error, "Not connected - DigitalWrite skipped"⟩], []⟩
  else if port < 0 ∨ port > 99 then
    .ok ⟨[⟨.error, "Invalid port. Must be 0-99"⟩], []⟩
  else
    let data := dwFrame port.toNat value
    match writeFrame tr data with
    | .ok _ =>
      .ok ⟨[⟨.tx, if value == 1 then "Motor HIGH" else "Motor LOW"⟩], [(data, true)]⟩
    | .error _ =>
      .ok ⟨[⟨.error, "Failed to send DigitalWrite"⟩], [(data, false)]⟩

/-- Body of the command queued by sendSkill (serial.ts 230-249). -/
def sendSkillThunk (tr : Transport) (st : SerialState) (skill : String) :
    Except String ThunkResult :=
  if !st.isConnected || !st.hasWriter then
    .ok ⟨[⟨.error, "Not connected - Skill skipped"⟩], []⟩
  else
    let data := lineFrame skill
    match writeFrame tr data with
    | .ok _ => .ok ⟨[⟨.tx, "Sending Skill: " ++ skill⟩], [(data, true)]⟩
    | .error _ => .ok ⟨[⟨.error, "Failed to send skill"⟩], [(data, false)]⟩

/-- Body of the command queued by sendRawCommand (serial.ts 251-270). -/
def sendRawCommandThunk (tr : Transport) (st : SerialState) (command : String) :
    Except String ThunkResult :=
  if !st.isConnected || !st.hasWriter then
    .ok ⟨[⟨.error, "Not connected - Command skipped"⟩], []⟩
  else
    let data := lineFrame command
    match writeFrame tr data with
    | .ok _ => .ok ⟨[⟨.tx, "Raw command: " ++ command⟩], [(data, true)]⟩
    | .error _ => .ok ⟨[⟨.error, "Failed to send command"⟩], [(data, false)]⟩

/-- forceStopMotor (serial.ts 212-228): the immediate actuator-off write that
bypasses the command queue; its own write failure is caught. -/
def forceStopMotor (tr : Transport) (st : SerialState) (port : Int) :
    Except String ThunkResult :=
  if !st.isConnected || !st.hasWriter then
    .ok ⟨[⟨.error, "Not connected - Force stop skipped"⟩], []⟩
  else
    let data := dwFrame port.toNat 0
    match writeFrame tr data with
    | .ok _ => .ok ⟨[⟨.tx, "FORCE STOP Motor"⟩], [(data, true)]⟩
    | .error _ => .ok ⟨[⟨.error, "Failed to force stop motor"⟩], [(data, false)]⟩

/-- Effects of a resolved thunk; every thunk resolves, so the default of the
getD is never reached. -/
def effectOf (e : Except String ThunkResult) : ThunkResult :=
  e.toOption.getD ⟨[], []⟩

/-- Whether a thunk promise resolves rather than rejects. -/
def resolves (e : Except String ThunkResult) : Bool :=
  match e with
  | .ok _ => true
  | .error _ => false

/-- A queued command: which public send operation created the thunk. -/
inductive Cmd
  | digitalWrite (port : Int) (value : Nat)
  | skill (code : String)
  | raw (text : String)
deriving DecidableEq, Repr

/-- Dispatch a serviced queue entry to its thunk body. -/
def runCmd (tr : Transport) (st : SerialState) : Cmd → Except String ThunkResult
  | .digitalWrite p v => sendDigitalWriteThunk tr st p v
  | .skill s => sendSkillThunk tr st s
  | .raw s => sendRawCommandThunk tr st s

/-- State of the SerialManager command queue, with ghost observables: the
commands serviced so far in service order, the frames actually sent, the logs
emitted by serviced thunks, and activeLoops, a ghost count of drain loops
currently running (the code itself only stores isProcessingQueue). -/
structure QState where
  queue : List Cmd
  isProcessingQueue : Bool
  activeLoops : Nat
  serviced : List Cmd
  sent : List (List Nat)
  logs : List LogEntry
deriving DecidableEq, Repr

/-- Events of the cooperative queue machine. enq appends the thunk pushed by
executeCommand and accounts for its processQueue call: when a drain loop is
already active, processQueue returns at its re-entry guard and the enq step
is the whole synchronous effect of the send call; when none is active it
marks the new loop as started, and that loop begins servicing the head
inside the same call stack — in the machine that first service is the next
svc event, so the effects of an svc event may fall inside the enqueue call
itself, and only an enq on an already-active loop delimits the call-time
observables of a send. svc is one iteration of the running drain loop: it
services the queue head, or exits and clears the flag when the queue is
empty; when no loop is running it does nothing. -/
inductive QEvent
  | enq (c : Cmd)
  | svc

/-- One transition of the queue machine. -/
def qstep (tr : Transport) (st : SerialState) (s : QState) : QEvent → QState
  | .enq c =>
    let s1 := { s with queue := s.queue ++ [c] }
    if s1.isProcessingQueue then s1
    else { s1 with isProcessingQueue := true, activeLoops := s1.activeLoops + 1 }
  | .svc =>
    if s.isProcessingQueue then
      match s.queue with
      | [] => { s with isProcessingQueue := false, activeLoops := s.activeLoops - 1 }
      | c :: rest =>
        let r := effectOf (runCmd tr st c)
        { s with queue := rest, serviced := s.serviced ++ [c],
                 sent := s.sent ++ r.sent, logs := s.logs ++ r.logs }
    else s

/-- Run the queue machine over a list of events. -/
def qrun (tr : Transport) (st : SerialState) (s : QState) (es : List QEvent) :
    QState :=
  es.foldl (qstep tr st) s

/-- The commands enqueued by an event list, in order. -/
def enqueuedOf : List QEvent → List Cmd
  | [] => []
  | .enq c :: es => c :: enqueuedOf es
  | .svc :: es => enqueuedOf es

/-- Initial queue state of a fresh SerialManager. -/
def q0 : QState := ⟨[], false, 0, [], [], []⟩

/-- disconnect() fault oracle: which of the three release operations
(reader.cancel + releaseLock, writer.releaseLock, port.close) would throw. -/
structure DisconnectEnv where
  readerCancelFails : Bool
  writerReleaseFails : Bool
  portCloseFails : Bool
deriving DecidableEq, Repr

/-- Outcome of one disconnect() call: final handle state, logs, which of the
three release steps were attempted, and whether an exception escaped to the
caller. -/
structure DisconnectResult where
  state : SerialState
  logs : List LogEntry
  triedReaderCancel : Bool
  triedWriterRelease : Bool
  triedPortClose : Bool
  raised : Bool
deriving DecidableEq, Repr

/-- disconnect (serial.ts 99-123): clears isReading, then a single try block
holds all three conditional release steps; the catch logs one error and
swallows the exception, so a failing early step abandons the rest of the try
block. -/
def disconnect (env : DisconnectEnv) (st0 : SerialState) : DisconnectResult :=
  let st := { st0 with isReading := false }
  if st.hasReader && env.readerCancelFails then
    { state := st, logs := [⟨.error, "Disconnect error"⟩],
      triedReaderCancel := true, triedWriterRelease := false,
      triedPortClose := false, raised := false }
  else
    let st1 := { st with hasReader := false }
    if st1.hasWriter && env.writerReleaseFails then
      { state := st1, logs := [⟨.error, "Disconnect error"⟩],
        triedReaderCancel := st.hasReader, triedWriterRelease := true,
        triedPortClose := false, raised := false }
    else
      let st2 := { st1 with hasWriter := false }
      if st2.hasPort && env.portCloseFails then
        { state := st2, logs := [⟨.error, "Disconnect error"⟩],
          triedReaderCancel := st.hasReader, triedWriterRelease := st1.hasWriter,
          triedPortClose := true, raised := false }
      else
        { state := { st2 with hasPort := false },
          logs := [⟨.info, "Disconnected from Bittle"⟩],
          triedReaderCancel := st.hasReader, triedWriterRelease := st1.hasWriter,
          triedPortClose := st2.hasPort, raised := false }

/-- Settings fields read by the DONE sequence (storage getSettings). -/
structure Settings where
  doneSkill1 : String
  servoCommand1 : String
  servoCommand2 : String
  doneSkill2 : String
  doneSkill3 : String
deriving DecidableEq, Repr

/-- DEFAULT_SETTINGS of the storage module, restricted to these fields. -/
def defaultSettings : Settings :=
  ⟨"kbx", "m1 0 180", "m1 0 180", "kvtL", "kup"⟩

/-- One awaited operation of the DONE sequence body. The transport layer of
sendServoCommand is not under src (only its call sites are); handleDone only
awaits it, so it is an opaque awaited command here. -/
inductive Action
  | skill (code : String)
  | servo (cmd : String)
  | digitalWrite (port : Int) (value : Nat)
  | wait (ms : Nat)
deriving DecidableEq, Repr

/-- The try-block body of handleDone (TimelineTab.tsx 128-217) as script
entries in program order: each entry is one awaited operation, flagged with
whether an abortRef check guards it (every entry except the final wait). -/
def doneScript (s : Settings) : List (Bool × Action) :=
  [(true, .skill s.doneSkill1),
   (true, .wait 3000),
   (true, .servo s.servoCommand1),
   (true, .wait 3000),
   (true, .digitalWrite 9 1),
   (true, .wait 3000),
   (true, .servo s.servoCommand2),
   (true, .wait 3000),
   (true, .skill s.doneSkill2),
   (true, .wait 3000),
   (true, .skill s.doneSkill3),
   (true, .wait 3000),
   (true, .digitalWrite 9 0),
   (false, .wait 3000)]

/-- Controller state of TimelineTab: the three pieces the entry guard and the
finally clause touch. -/
structure Ctrl where
  processingTask : Option String
  sequenceLock : Bool
  currentStep : Option String
deriving DecidableEq, Repr

/-- JS truthiness of the processingTask string-or-null. -/
def truthy : Option String → Bool
  | none => false
  | some s => s != ""

/-- Environment of one handleDone run: the captured isConnected prop, the
value the shared abortRef holds at the check guarding entry i (an oracle,
soundly covering every interleaved mutation of the flag), and per-entry fault
injection (failAt i: the await of entry i rejects after the operation was
issued). -/
structure RunEnv where
  connected : Bool
  abortAt : Nat → Bool
  failAt : Nat → Bool

/-- How one handleDone invocation ended. -/
inductive Outcome
  | rejected
  | completed
  | failed
deriving DecidableEq, Repr

/-- Execute script entries in order starting at check index i: an entry first
checks the abort flag (when flagged) and throws if set, then issues its
action; an injected fault at entry i throws after issuance. Returns the
issued actions and whether an exception escaped the try body. -/
def runSteps (ab fl : Nat → Bool) : Nat → List (Bool × Action) → List Action × Bool
  | _, [] => ([], false)
  | i, (chk, a) :: rest =>
    if chk && ab i then ([], true)
    else if fl i then ([a], true)
    else
      let r := runSteps ab fl (i + 1) rest
      (a :: r.1, r.2)

/-- handleDone (TimelineTab.tsx 107-232): the entry guard, the try body (only
run when connected), the catch clause issuing a best-effort digitalWrite(9,0)
whose own failure is swallowed by an inner catch, and the finally clause
releasing processingTask, sequenceLock and currentStep. Returns the final
controller state, the actions issued in order, and the outcome. -/
def handleDone (env : RunEnv) (s : Settings) (ctrl : Ctrl) (taskId : String) :
    Ctrl × List Action × Outcome :=
  if truthy ctrl.processingTask || ctrl.sequenceLock then (ctrl, [], .rejected)
  else
    let started : Ctrl := ⟨some taskId, true, none⟩
    let r := if env.connected
             then runSteps env.abortAt env.failAt 0 (doneScript s)
             else ([], false)
    let acts := if r.2 then r.1 ++ [.digitalWrite 9 0] else r.1
    ({ started with processingTask := none, sequenceLock := false,
                    currentStep := none },
     acts, if r.2 then .failed else .completed)

/-- handleEmergencyStop (TimelineTab.tsx 93-101) as one settled call: sets
then clears the abort flag, awaits forceStopMotor on port 9, and releases the
controller. Returns the final controller state, the abortRef value after the
handler returns, and the force-stop effects. -/
def handleEmergencyStop (tr : Transport) (sst : SerialState) (_ctrl : Ctrl) :
    Ctrl × Bool × ThunkResult :=
  (⟨none, false, none⟩, false, effectOf (forceStopMotor tr sst 9))

/-- Digital-write actions among a list of issued actions. -/
def actuatorWrites (l : List Action) : List (Int × Nat) :=
  l.filterMap fun a =>
    match a with
    | .digitalWrite p v => some (p, v)
    | _ => none

/-!
Interleaving machine for handleDone running concurrently with
handleEmergencyStop under the browser's single-threaded cooperative
scheduling. The two coroutines share abortRef and the controller state; each
machine step is one resumption of a coroutine, running synchronously from one
await to the next.
-/

/-- Observable events of the interleaved execution, in real-time order:
actions issued by the handleDone coroutine, and the direct force-stop write
the emergency stop issues past the queue. -/
inductive MEvent
  | issued (a : Action)
  | forceStopWrite
deriving DecidableEq, Repr

/-- Shared state of the two coroutines: the abortRef ref cell, the controller
fields, and the event trace. -/
structure MState where
  abortRef : Bool
  sequenceLock : Bool
  processingTask : Option String
  currentStep : Option String
  events : List MEvent
deriving DecidableEq, Repr

/-- Continuation of the handleDone coroutine. bodyPhase holds the script
entries not yet issued; catchPhase is about to issue the best-effort off
write; finPhase is about to run the finally clause. -/
inductive DonePhase
  | bodyPhase (remaining : List (Bool × Action))
  | catchPhase
  | finPhase
  | terminated
deriving DecidableEq, Repr

/-- Continuation of the handleEmergencyStop coroutine. It suspends inside
forceStopMotor (at its pre- and post-write delays); after forceStopMotor
resolves, the releases and the abortRef reset run in one synchronous block. -/
inductive StopPhase
  | setFlag
  | issueForceStop
  | releaseAndClear
  | stopDone
deriving DecidableEq, Repr

/-- A configuration of the interleaved system. -/
structure Config where
  shared : MState
  done : DonePhase
  stop : StopPhase
deriving DecidableEq, Repr

/-- One resumption of handleDone: at an entry with an abort check it reads
abortRef and either throws to the catch clause or issues the entry's
operation and suspends on its await; an exhausted script runs to the finally
clause; the finally clause releases the lock fields and returns. -/
def doneStep : Config → Config
  | ⟨m, .bodyPhase [], st⟩ => ⟨m, .finPhase, st⟩
  | ⟨m, .bodyPhase ((chk, a) :: rest), st⟩ =>
    if chk && m.abortRef then ⟨m, .catchPhase, st⟩
    else ⟨{ m with events := m.events ++ [.issued a] }, .bodyPhase rest, st⟩
  | ⟨m, .catchPhase, st⟩ =>
    ⟨{ m with events := m.events ++ [.issued (.digitalWrite 9 0)] }, .finPhase, st⟩
  | ⟨m, .finPhase, st⟩ =>
    ⟨{ m with sequenceLock := false, processingTask := none,
              currentStep := none }, .terminated, st⟩
  | ⟨m, .terminated, st⟩ => ⟨m, .terminated, st⟩

/-- One resumption of handleEmergencyStop: set abortRef and suspend inside
forceStopMotor; issue the direct off write and suspend on the trailing delay;
then, in one synchronous block, release the controller fields and reset
abortRef to false. -/
def stopStep : Config → Config
  | ⟨m, d, .setFlag⟩ =>
    ⟨{ m with abortRef := true, currentStep := some "EMERGENCY STOP" }, d,
     .issueForceStop⟩
  | ⟨m, d, .issueForceStop⟩ =>
    ⟨{ m with events := m.events ++ [.forceStopWrite] }, d, .releaseAndClear⟩
  | ⟨m, d, .releaseAndClear⟩ =>
    ⟨{ m with sequenceLock := false, processingTask := none,
              currentStep := none, abortRef := false }, d, .stopDone⟩
  | ⟨m, d, .stopDone⟩ => ⟨m, d, .stopDone⟩

/-- Run the interleaved system under a schedule: true resumes the handleDone
coroutine, false resumes the handleEmergencyStop coroutine. -/
def interleave (cfg : Config) : List Bool → Config
  | [] => cfg
  | b :: bs => interleave (if b then doneStep cfg else stopStep cfg) bs

/-- Configuration just after handleDone (running the default settings script
for task t1) has passed its entry guard, with the emergency stop invoked and
about to run: the sequence holds the lock, abortRef is false. -/
def raceStart : Config :=
  ⟨⟨false, true, some "t1", none, []⟩,
   .bodyPhase (doneScript defaultSettings), .setFlag⟩

/-- The schedule in which the operator presses STOP while the sequence sits
in the 3-second wait after step 1: the sequence issues entry 1 and the first
wait, then the emergency stop runs from start to finish (three resumptions,
roughly 100 ms of delays) while the 3000 ms wait is still pending, then the
sequence resumes and runs to completion. -/
def stopDuringWaitSchedule : List Bool :=
  [true, true, false, false, false] ++ List.replicate 14 true

/-! Concrete fixtures used by witnesses and counterexamples. -/

/-- A transport on which every write succeeds. -/
def trOk : Transport := ⟨fun _ => true⟩

/-- A fully connected SerialManager (port, writer and reader held). -/
def sstConn : SerialState := ⟨true, true, true, true⟩

/-- A disconnected SerialManager (no handles held). -/
def sstDisc : SerialState := ⟨false, false, false, false⟩

/-- A queue state whose drain loop is running with one pending skill. -/
def qBusy : QState := ⟨[.skill "khi"], true, 1, [], [], []⟩

/-- A queue state whose drain loop is running with nothing pending: the loop
sits in the settling delay after its previous command. -/
def qMid : QState := ⟨[], true, 1, [], [], []⟩

/-- A run environment with no abort and no injected fault, connected. -/
def envOk : RunEnv := ⟨true, fun _ => false, fun _ => false⟩

/-- A run environment whose entry 2 (the first servo command) faults. -/
def envFail : RunEnv := ⟨true, fun _ => false, fun i => i == 2⟩

/-- An idle controller. -/
def ctrlIdle : Ctrl := ⟨none, false, none⟩

/-- A controller in the middle of a run (lock held). -/
def ctrlRunning : Ctrl := ⟨some "t1", true, some "Step 1/8: Skill #1"⟩

/-! Shared lemmas. -/

/-- Servicing a non-empty queue with the drain loop running pops the head and
appends its effects. -/
lemma qstep_svc_cons (tr : Transport) (st : SerialState) (q : QState)
    (c : Cmd) (rest : List Cmd)
    (hq : q.queue = c :: rest) (hp : q.isProcessingQueue = true) :
    qstep tr st q .svc
      = { q with queue := rest, serviced := q.serviced ++ [c],
                 sent := q.sent ++ (effectOf (runCmd tr st c)).sent,
                 logs := q.logs ++ (effectOf (runCmd tr st c)).logs } := by
  simp [qstep, hp, hq]

/-- The fixed error message each thunk logs when serviced while disconnected. -/
def notConnectedMsg : Cmd → String
  | .digitalWrite _ _ => "Not connected - DigitalWrite skipped"
  | .skill _ => "Not connected - Skill skipped"
  | .raw _ => "Not connected - Command skipped"

/-- Serviced while disconnected, every thunk resolves with a single error log
and no write. -/
lemma runCmd_disconnected (tr : Transport) (st : SerialState) (c : Cmd)
    (h : st.isConnected = false) :
    runCmd tr st c = .ok ⟨[⟨.error, notConnectedMsg c⟩], []⟩ := by
  cases c <;> simp [runCmd, sendDigitalWriteThunk, sendSkillThunk,
    sendRawCommandThunk, notConnectedMsg, h]

/-- A try body that did not throw issued every entry of its script. -/
lemma runSteps_eq_of_not_escaped (ab fl : Nat → Bool) :
    ∀ (steps : List (Bool × Action)) (i : Nat),
      (runSteps ab fl i steps).2 = false →
      (runSteps ab fl i steps).1 = steps.map Prod.snd := by
  intro steps
  induction steps with
  | nil => intro i _; rfl
  | cons hd tl ih =>
    intro i h
    obtain ⟨chk, a⟩ := hd
    by_cases h1 : (chk && ab i) = true
    · simp [runSteps, h1] at h
    · by_cases h2 : fl i = true
      · simp [runSteps, h1, h2] at h
      · simp only [runSteps, h1, h2, Bool.false_eq_true, if_false] at h ⊢
        simp only [List.map_cons, List.cons.injEq, true_and]
        exact ih (i + 1) h

/-- For an in-range port and a binary value the Uint8Array truncation is the
identity. -/
lemma dwFrame_inrange (p v : Nat) (hp : p ≤ 99) (hv : v ≤ 1) :
    dwFrame p v = [87, 100, p, v] := by
  simp [dwFrame, byteOf, Nat.mod_eq_of_lt (show p < 256 by omega),
    Nat.mod_eq_of_lt (show v < 256 by omega)]

/-- Every frame forceStopMotor on port 9 hands to the writer is the channel-9
off frame (there is either no write, when disconnected, or exactly that
frame). -/
lemma forceStop_frames (tr : Transport) (sst : SerialState) :
    (effectOf (forceStopMotor tr sst 9)).writes.map Prod.fst = []
    ∨ (effectOf (forceStopMotor tr sst 9)).writes.map Prod.fst = [dwFrame 9 0] := by
  unfold forceStopMotor writeFrame effectOf
  by_cases hcn : (!sst.isConnected || !sst.hasWriter) = true
  · left
    simp [hcn, Except.toOption]
  · right
    rw [show ((9 : Int)).toNat = 9 from rfl]
    by_cases hw : tr.writeOk (dwFrame 9 0) = true
    · simp [hcn, hw, Except.toOption]
    · simp [hcn, hw, Except.toOption]

/-- The trailing catch-clause off write dominates the last actuator write. -/
lemma actuatorWrites_concat_off (l : List Action) :
    (actuatorWrites (l ++ [Action.digitalWrite 9 0])).getLast? = some (9, 0) := by
  simp [actuatorWrites, List.filterMap_append]

/-- enqueuedOf distributes over cons. -/
lemma enqueuedOf_cons (e : QEvent) (es : List QEvent) :
    enqueuedOf (e :: es) = enqueuedOf [e] ++ enqueuedOf es := by
  cases e <;> rfl

/-- One queue step preserves the ghost link between the running-loop counter
and the isProcessingQueue flag. -/
lemma qstep_loops_inv (tr : Transport) (st : SerialState) (s : QState) (e : QEvent)
    (h : s.activeLoops = if s.isProcessingQueue then 1 else 0) :
    (qstep tr st s e).activeLoops
      = if (qstep tr st s e).isProcessingQueue then 1 else 0 := by
  cases e with
  | enq c =>
    by_cases hp : s.isProcessingQueue
    · simp [qstep, hp, h]
    · simp [qstep, hp, h]
  | svc =>
    by_cases hp : s.isProcessingQueue
    · cases hq : s.queue with
      | nil =>
        simp only [hp, if_true] at h
        simp [qstep, hp, hq, h]
      | cons c rest => simp [qstep, hp, hq, h]
    · simp [qstep, hp, h]

/-- One queue step preserves order: serviced-then-pending always equals the
full enqueue order. -/
lemma qstep_order (tr : Transport) (st : SerialState) (s : QState) (e : QEvent) :
    (qstep tr st s e).serviced ++ (qstep tr st s e).queue
      = s.serviced ++ s.queue ++ enqueuedOf [e] := by
  cases e with
  | enq c =>
    by_cases hp : s.isProcessingQueue
    · simp [qstep, hp, enqueuedOf]
    · simp [qstep, hp, enqueuedOf]
  | svc =>
    by_cases hp : s.isProcessingQueue
    · cases hq : s.queue with
      | nil => simp [qstep, hp, hq, enqueuedOf]
      | cons c rest => simp [qstep, hp, hq, enqueuedOf]
    · simp [qstep, hp, enqueuedOf]

/-- Trace induction: from any state satisfying the loop-flag link, a run
preserves it and extends serviced-plus-pending by exactly the commands
enqueued, in order. -/
lemma qrun_inv (tr : Transport) (st : SerialState) :
    ∀ (es : List QEvent) (s : QState),
      s.activeLoops = (if s.isProcessingQueue then 1 else 0) →
      (qrun tr st s es).serviced ++ (qrun tr st s es).queue
          = s.serviced ++ s.queue ++ enqueuedOf es
      ∧ (qrun tr st s es).activeLoops
          = (if (qrun tr st s es).isProcessingQueue then 1 else 0) := by
  intro es
  induction es with
  | nil =>
    intro s h
    constructor
    · simp [qrun, enqueuedOf]
    · simpa [qrun] using h
  | cons e es ih =>
    intro s h
    have hstep := qstep_loops_inv tr st s e h
    have horder := qstep_order tr st s e
    have hrun : qrun tr st s (e :: es) = qrun tr st (qstep tr st s e) es := by
      simp [qrun]
    obtain ⟨ih1, ih2⟩ := ih (qstep tr st s e) hstep
    constructor
    · rw [hrun, ih1, horder, enqueuedOf_cons e es, List.append_assoc]
    · rw [hrun]; exact ih2

/-! Claim theorems. -/

/-- C1 (code bug): with the emergency stop pressed while the DONE sequence
sits in the 3-second wait after step 1, the stop handler runs to completion
first — it sets abortRef, transmits the direct off write, releases the lock,
and then resets abortRef to false — so when the pending wait resolves, the
sequence reads abortRef as false and executes every remaining step, including
the step-3 motor-ON write (event index 5, after the forceStopWrite at index
2), instead of executing none of steps k+1..N-1 as the claim requires. -/
theorem emergency_stop_race_trace :
    (interleave raceStart stopDuringWaitSchedule).done = .terminated
    ∧ (interleave raceStart stopDuringWaitSchedule).stop = .stopDone
    ∧ (interleave raceStart stopDuringWaitSchedule).shared.sequenceLock = false
    ∧ (interleave raceStart stopDuringWaitSchedule).shared.abortRef = false
    ∧ (interleave raceStart stopDuringWaitSchedule).shared.events =
      [.issued (.skill "kbx"), .issued (.wait 3000), .forceStopWrite,
       .issued (.servo "m1 0 180"), .issued (.wait 3000),
       .issued (.digitalWrite 9 1), .issued (.wait 3000),
       .issued (.servo "m1 0 180"), .issued (.wait 3000),
       .issued (.skill "kvtL"), .issued (.wait 3000),
       .issued (.skill "kup"), .issued (.wait 3000),
       .issued (.digitalWrite 9 0), .issued (.wait 3000)] :=
  ⟨rfl, rfl, rfl, rfl, rfl⟩

/-- C2: on every exit path of handleDone — rejected entry guard, disconnected
run, full completion, or an escaped abort/fault handled by the catch clause —
the issued actuator writes are either absent or end with the channel-9 off
write; and every frame the emergency stop hands to the writer is the
channel-9 off frame. -/
theorem sequence_exit_leaves_motor_off (env : RunEnv) (s : Settings)
    (ctrl : Ctrl) (t : String) (tr : Transport) (sst : SerialState) :
    (actuatorWrites (handleDone env s ctrl t).2.1 = []
      ∨ (actuatorWrites (handleDone env s ctrl t).2.1).getLast? = some (9, 0))
    ∧ (((handleEmergencyStop tr sst ctrl).2.2).writes.map Prod.fst = []
      ∨ ((handleEmergencyStop tr sst ctrl).2.2).writes.map Prod.fst
          = [dwFrame 9 0]) := by
  constructor
  · by_cases hg : (truthy ctrl.processingTask || ctrl.sequenceLock) = true
    · left
      simp [handleDone, hg, actuatorWrites]
    · by_cases hc : env.connected = true
      · cases hesc : (runSteps env.abortAt env.failAt 0 (doneScript s)).2 with
        | true =>
          right
          simp only [handleDone, hg, if_false, hc, if_true, hesc]
          exact actuatorWrites_concat_off _
        | false =>
          right
          simp only [handleDone, hg, if_false, hc, if_true, hesc]
          rw [runSteps_eq_of_not_escaped env.abortAt env.failAt (doneScript s) 0 hesc]
          rfl
      · left
        simp only [Bool.not_eq_true] at hc
        simp [handleDone, hg, hc, actuatorWrites]
  · exact forceStop_frames tr sst

/-- C3: over every event trace of the command queue from a fresh
SerialManager, the serviced commands followed by the still-pending ones equal
the enqueue order (so commands are serviced in exactly the order enqueued,
one per drain iteration), and the number of running drain loops is 1 exactly
while isProcessingQueue is set and 0 otherwise — never more than one, so a
second drain loop is never started while one is active. -/
theorem queue_fifo_and_single_drain (tr : Transport) (st : SerialState)
    (es : List QEvent) :
    (qrun tr st q0 es).serviced ++ (qrun tr st q0 es).queue = enqueuedOf es
    ∧ (qrun tr st q0 es).activeLoops
        = (if (qrun tr st q0 es).isProcessingQueue then 1 else 0)
    ∧ (qrun tr st q0 es).activeLoops ≤ 1 := by
  obtain ⟨h1, h2⟩ := qrun_inv tr st es q0 rfl
  refine ⟨?_, h2, ?_⟩
  · simpa [q0] using h1
  · rw [h2]; split <;> omega

/-- C4: with the link connected and the transport accepting the write, the
digital-write thunk for any port in [0,99] and value in {0,1} writes exactly
the four raw bytes 0x57 0x64 port value, and the skill thunk writes exactly
the ASCII bytes of the code followed by one 0x0A; in particular
DigitalWrite(9,1) is [0x57,0x64,0x09,0x01] and Skill "khi" is "khi"
newline-terminated. -/
theorem frame_encoding_exact (tr : Transport) (st : SerialState) (p v : Nat)
    (s : String) (hp : p ≤ 99) (hv : v ≤ 1)
    (hconn : st.isConnected = true)
    (hwd : tr.writeOk (dwFrame p v) = true)
    (hws : tr.writeOk (lineFrame s) = true) :
    (effectOf (sendDigitalWriteThunk tr st (p : Int) v)).sent = [[87, 100, p, v]]
    ∧ (effectOf (sendSkillThunk tr st s)).sent = [lineFrame s]
    ∧ lineFrame s = asciiBytes s ++ [10]
    ∧ dwFrame 9 1 = [0x57, 0x64, 0x09, 0x01]
    ∧ lineFrame "khi" = [0x6B, 0x68, 0x69, 0x0A] := by
  have hw : st.hasWriter = true := by
    have := hconn
    simp only [SerialState.isConnected, Bool.and_eq_true] at this
    exact this.2
  have hrange : ¬((p : Int) < 0 ∨ (p : Int) > 99) := by omega
  have hfr := dwFrame_inrange p v hp hv
  have hwd2 : tr.writeOk [87, 100, p, v] = true := by rwa [hfr] at hwd
  refine ⟨?_, ?_, ?_, by decide, by decide⟩
  · unfold sendDigitalWriteThunk
    rw [if_neg (show ¬(!st.isConnected || !st.hasWriter) = true by
      simp [hconn, hw])]
    rw [if_neg hrange]
    simp [Int.toNat_natCast, hfr, writeFrame, hwd2, effectOf, Except.toOption,
      ThunkResult.sent]
  · simp [sendSkillThunk, hconn, hw, writeFrame, hws, effectOf,
      Except.toOption, ThunkResult.sent]
  · simp [lineFrame, asciiBytes, String.data_append]

/-- C4 witness: the theorem at port 9, value 1, skill "khi", on a connected
manager with an all-accepting transport. -/
theorem frame_encoding_exact_witness :
    (effectOf (sendDigitalWriteThunk trOk sstConn ((9 : Nat) : Int) 1)).sent
        = [[87, 100, 9, 1]]
    ∧ (effectOf (sendSkillThunk trOk sstConn "khi")).sent = [lineFrame "khi"]
    ∧ lineFrame "khi" = asciiBytes "khi" ++ [10]
    ∧ dwFrame 9 1 = [0x57, 0x64, 0x09, 0x01]
    ∧ lineFrame "khi" = [0x6B, 0x68, 0x69, 0x0A] :=
  frame_encoding_exact trOk sstConn 9 1 "khi" (by decide) (by decide) rfl rfl rfl

/-- C5 counterexample: with a drain loop already active (sitting in the
settling delay after its previous command, queue empty), calling
sendDigitalWrite with out-of-range port 100 reports nothing synchronously:
processQueue returns at its re-entry guard, so the whole call-time effect is
to append the command — no log entry, no rejection, the returned promise
left pending. The invalid-port error log is emitted only later, when the
running loop dequeues and services the command, and nothing is transmitted;
so at this input the validation error is merely logged after the command is
dequeued, never reported synchronously to the caller, refuting the claim. -/
theorem digitalWrite_validation_logged_after_dequeue :
    (qstep trOk sstConn qMid (.enq (.digitalWrite 100 1))).logs = []
    ∧ (qstep trOk sstConn qMid (.enq (.digitalWrite 100 1))).queue
        = [.digitalWrite 100 1]
    ∧ (qstep trOk sstConn qMid (.enq (.digitalWrite 100 1))).isProcessingQueue
        = true
    ∧ (qstep trOk sstConn
        (qstep trOk sstConn qMid (.enq (.digitalWrite 100 1))) .svc).logs
        = [⟨.error, "Invalid port. Must be 0-99"⟩]
    ∧ (qstep trOk sstConn
        (qstep trOk sstConn qMid (.enq (.digitalWrite 100 1))) .svc).sent = [] :=
  ⟨rfl, rfl, rfl, rfl, rfl⟩

/-- C5 amended: for every port outside [0,99], the digital-write command,
when its queued thunk is serviced on a connected manager, is rejected before
any frame is encoded or byte transmitted, resolving with only the
invalid-port error log; and the report is not synchronous to the caller in
general: whenever a drain loop is already active at call time, the call only
enqueues — it adds no log entry — and the error is logged strictly after the
command is later dequeued (only on an idle queue does the service, and hence
the log, happen to run within the call, and even then the promise resolves
with no error surfaced to the caller). -/
theorem digitalWrite_range_check_at_service (tr : Transport) (st : SerialState)
    (p : Int) (v : Nat) (q : QState) (hconn : st.isConnected = true)
    (hp : p < 0 ∨ p > 99) (hbusy : q.isProcessingQueue = true) :
    sendDigitalWriteThunk tr st p v
      = .ok ⟨[⟨.error, "Invalid port. Must be 0-99"⟩], []⟩
    ∧ (qstep tr st q (.enq (.digitalWrite p v))).logs = q.logs
    ∧ (qstep tr st q (.enq (.digitalWrite p v))).queue
        = q.queue ++ [.digitalWrite p v] := by
  have hw : st.hasWriter = true := by
    have := hconn
    simp only [SerialState.isConnected, Bool.and_eq_true] at this
    exact this.2
  refine ⟨?_, ?_, ?_⟩
  · simp [sendDigitalWriteThunk, hconn, hw, hp]
  · simp [qstep, hbusy]
  · simp [qstep, hbusy]

/-- C5 witness: the amended theorem at port 100, value 1, against a manager
whose drain loop is mid-delay. -/
theorem digitalWrite_range_check_at_service_witness :
    sendDigitalWriteThunk trOk sstConn 100 1
      = .ok ⟨[⟨.error, "Invalid port. Must be 0-99"⟩], []⟩
    ∧ (qstep trOk sstConn qMid (.enq (.digitalWrite 100 1))).logs = qMid.logs
    ∧ (qstep trOk sstConn qMid (.enq (.digitalWrite 100 1))).queue
        = qMid.queue ++ [.digitalWrite 100 1] :=
  digitalWrite_range_check_at_service trOk sstConn 100 1 qMid rfl
    (Or.inr (by decide)) rfl

/-- C6: a queued command serviced while the manager is not connected
transmits nothing and resolves with exactly one error log entry, and the
drain loop moves on: the queue shrinks to the remaining commands with the
loop still running, the sent frames unchanged, and only the error log
appended. -/
theorem disconnected_service_drops_and_continues (tr : Transport)
    (st : SerialState) (q : QState) (c : Cmd) (rest : List Cmd)
    (hconn : st.isConnected = false)
    (hq : q.queue = c :: rest) (hp : q.isProcessingQueue = true) :
    ∃ m, runCmd tr st c = .ok ⟨[⟨.error, m⟩], []⟩
      ∧ (qstep tr st q .svc).queue = rest
      ∧ (qstep tr st q .svc).isProcessingQueue = true
      ∧ (qstep tr st q .svc).sent = q.sent
      ∧ (qstep tr st q .svc).logs = q.logs ++ [⟨.error, m⟩] := by
  refine ⟨notConnectedMsg c, runCmd_disconnected tr st c hconn, ?_, ?_, ?_, ?_⟩ <;>
    rw [qstep_svc_cons tr st q c rest hq hp] <;>
    simp [runCmd_disconnected tr st c hconn, effectOf, Except.toOption,
      ThunkResult.sent, hp]

/-- C6 witness: a skill command serviced on a disconnected manager with one
command queued and the drain loop running. -/
theorem disconnected_service_drops_and_continues_witness :
    ∃ m, runCmd trOk sstDisc (.skill "khi") = .ok ⟨[⟨.error, m⟩], []⟩
      ∧ (qstep trOk sstDisc qBusy .svc).queue = []
      ∧ (qstep trOk sstDisc qBusy .svc).isProcessingQueue = true
      ∧ (qstep trOk sstDisc qBusy .svc).sent = qBusy.sent
      ∧ (qstep trOk sstDisc qBusy .svc).logs = qBusy.logs ++ [⟨.error, m⟩] :=
  disconnected_service_drops_and_continues trOk sstDisc qBusy (.skill "khi") []
    rfl rfl rfl

/-- C7 counterexample: on a fully connected manager whose reader.cancel
throws, disconnect() does not attempt the writer release or the port close —
the single try/catch abandons them — and the port and writer handles remain
held, refuting the claim that all three release steps are attempted even
when an earlier one fails. -/
theorem disconnect_skips_later_steps :
    (disconnect ⟨true, false, false⟩ sstConn).triedWriterRelease = false
    ∧ (disconnect ⟨true, false, false⟩ sstConn).triedPortClose = false
    ∧ (disconnect ⟨true, false, false⟩ sstConn).state.hasPort = true
    ∧ (disconnect ⟨true, false, false⟩ sstConn).state.hasWriter = true
    ∧ (disconnect ⟨true, false, false⟩ sstConn).logs
        = [⟨.error, "Disconnect error"⟩] :=
  ⟨rfl, rfl, rfl, rfl, rfl⟩

/-- C7 amended: disconnect() never propagates an exception; called while
already disconnected it attempts no release step and leaves the handle state
unchanged apart from clearing isReading (an info log entry is still
emitted); and when an early release step fails, that failure is logged as a
single error entry but the later release steps are skipped rather than
attempted. -/
theorem disconnect_amended (env : DisconnectEnv) (st0 : SerialState) :
    (disconnect env st0).raised = false
    ∧ (st0.hasReader = false → st0.hasWriter = false → st0.hasPort = false →
        (disconnect env st0).state = { st0 with isReading := false }
        ∧ (disconnect env st0).triedReaderCancel = false
        ∧ (disconnect env st0).triedWriterRelease = false
        ∧ (disconnect env st0).triedPortClose = false
        ∧ (disconnect env st0).logs = [⟨.info, "Disconnected from Bittle"⟩])
    ∧ (st0.hasReader = true → env.readerCancelFails = true →
        (disconnect env st0).triedWriterRelease = false
        ∧ (disconnect env st0).triedPortClose = false
        ∧ (disconnect env st0).logs = [⟨.error, "Disconnect error"⟩]) := by
  obtain ⟨rcf, wrf, pcf⟩ := env
  obtain ⟨P, W, R, I⟩ := st0
  refine ⟨?_, ?_, ?_⟩
  · cases rcf <;> cases wrf <;> cases pcf <;> cases P <;> cases W <;> cases R <;>
      rfl
  · intro h1 h2 h3
    simp only at h1 h2 h3
    subst h1; subst h2; subst h3
    simp [disconnect]
  · intro h1 h2
    simp only at h1 h2
    subst h1; subst h2
    simp [disconnect]

/-- C7 witness: the amended theorem applied to an already-disconnected
manager, and to a connected manager whose reader.cancel throws. -/
theorem disconnect_amended_witness :
    ((disconnect ⟨false, false, false⟩ sstDisc).state
        = { sstDisc with isReading := false }
      ∧ (disconnect ⟨false, false, false⟩ sstDisc).triedReaderCancel = false)
    ∧ (disconnect ⟨true, false, false⟩ sstConn).raised = false
    ∧ (disconnect ⟨true, false, false⟩ sstConn).triedPortClose = false := by
  have h1 := disconnect_amended ⟨false, false, false⟩ sstDisc
  have h2 := disconnect_amended ⟨true, false, false⟩ sstConn
  exact ⟨⟨(h1.2.1 rfl rfl rfl).1, (h1.2.1 rfl rfl rfl).2.1⟩, h2.1,
    (h2.2.2 rfl rfl).2.1⟩

/-- C8: while a run holds the sequence lock, a second handleDone call is a
no-op: it returns with the controller state unchanged, issues no action, and
is rejected by the entry guard, so at most one sequence run exists. -/
theorem second_run_is_noop (env : RunEnv) (s : Settings) (ctrl : Ctrl)
    (t : String) (h : ctrl.sequenceLock = true) :
    handleDone env s ctrl t = (ctrl, [], .rejected) := by
  simp [handleDone, h]

/-- C8 witness: a second call during a running sequence. -/
theorem second_run_is_noop_witness :
    ctrlRunning.sequenceLock = true
    ∧ handleDone envOk defaultSettings ctrlRunning "t2"
        = (ctrlRunning, [], .rejected) :=
  ⟨rfl, second_run_is_noop envOk defaultSettings ctrlRunning "t2" rfl⟩

/-- C9: for a run that passes the entry guard, whatever abort flags or step
faults occur, handleDone returns normally (its outcome is completed or
failed, never a propagated exception), the lock fields are all released on
every exit path, and on the failure path the catch clause's best-effort
actuator-off write is the last action issued. -/
theorem sequence_error_caught_and_released (env : RunEnv) (s : Settings)
    (ctrl : Ctrl) (t : String)
    (hp : truthy ctrl.processingTask = false) (hl : ctrl.sequenceLock = false) :
    (handleDone env s ctrl t).1 = ⟨none, false, none⟩
    ∧ ((handleDone env s ctrl t).2.2 = .failed →
        ((handleDone env s ctrl t).2.1).getLast?
          = some (.digitalWrite 9 0))
    ∧ ((handleDone env s ctrl t).2.2 = .failed
        ∨ (handleDone env s ctrl t).2.2 = .completed) := by
  have hg : (truthy ctrl.processingTask || ctrl.sequenceLock) = false := by
    rw [hp, hl]; rfl
  refine ⟨?_, ?_, ?_⟩
  · simp [handleDone, hg]
  · intro hfail
    by_cases hesc : (if env.connected
        then runSteps env.abortAt env.failAt 0 (doneScript s)
        else ([], false)).2 = true
    · simp only [handleDone, hg, Bool.false_eq_true, if_false, hesc, if_true]
      exact List.getLast?_concat _
    · simp only [handleDone, hg, Bool.false_eq_true, if_false, hesc] at hfail
      simp at hfail
  · by_cases hesc : (if env.connected
        then runSteps env.abortAt env.failAt 0 (doneScript s)
        else ([], false)).2 = true
    · left; simp [handleDone, hg, hesc]
    · right; simp [handleDone, hg, hesc]

/-- C9 witness: a run whose entry 2 (the first servo command) faults: the
lock is released, the outcome is failed, and the last issued action is the
off write. -/
theorem sequence_error_caught_and_released_witness :
    truthy ctrlIdle.processingTask = false ∧ ctrlIdle.sequenceLock = false
    ∧ ((handleDone envFail defaultSettings ctrlIdle "t1").1 = ⟨none, false, none⟩
      ∧ ((handleDone envFail defaultSettings ctrlIdle "t1").2.2 = .failed →
          ((handleDone envFail defaultSettings ctrlIdle "t1").2.1).getLast?
            = some (.digitalWrite 9 0))
      ∧ ((handleDone envFail defaultSettings ctrlIdle "t1").2.2 = .failed
          ∨ (handleDone envFail defaultSettings ctrlIdle "t1").2.2
              = .completed)) :=
  ⟨rfl, rfl,
    sequence_error_caught_and_released envFail defaultSettings ctrlIdle "t1"
      rfl rfl⟩

/-- C10: none of the three public send operations can reject: for every
transport behaviour, connection state and argument — disconnected manager,
out-of-range port, failing write included — the queued thunk resolves. -/
theorem send_operations_never_reject (tr : Transport) (st : SerialState)
    (p : Int) (v : Nat) (sk rw : String) :
    resolves (sendDigitalWriteThunk tr st p v) = true
    ∧ resolves (sendSkillThunk tr st sk) = true
    ∧ resolves (sendRawCommandThunk tr st rw) = true := by
  refine ⟨?_, ?_, ?_⟩
  · unfold sendDigitalWriteThunk
    by_cases hcn : (!st.isConnected || !st.hasWriter) = true
    · simp [hcn, resolves]
    · by_cases hr : p < 0 ∨ p > 99
      · simp [hcn, hr, resolves]
      · cases hw : writeFrame tr (dwFrame p.toNat v) <;>
          simp [hcn, hr, hw, resolves]
  · unfold sendSkillThunk
    by_cases hcn : (!st.isConnected || !st.hasWriter) = true
    · simp [hcn, resolves]
    · cases hw : writeFrame tr (lineFrame sk) <;> simp [hcn, hw, resolves]
  · unfold sendRawCommandThunk
    by_cases hcn : (!st.isConnected || !st.hasWriter) = true
    · simp [hcn, resolves]
    · cases hw : writeFrame tr (lineFrame rw) <;> simp [hcn, hw, resolves]

end Bittle
